import Mathlib

/-!
Shallow embedding of the Happy Thoughts API (src/server.js, with the earlier
in-memory variants in src/unnamed/part_000 and src/unnamed/part_001).

The persisted-store variant in src/server.js is the canonical code; each
definition below carries a comment pointing at the source lines it embeds.
Strings are Lean strings, JS numbers are Lean Int, MongoDB documents are
structure values, the Mongo collections are Lean lists.
-/

/-- Thought document, per thoughtSchema in src/server.js lines 40-62:
message (required, minlength 5, maxlength 140), hearts (default 0),
category (default "General"), createdBy (required), createdAt (set at
creation). The id stands for the store-assigned Mongo _id. -/
structure Thought where
  id : Nat
  message : String
  hearts : Int
  category : String
  createdBy : String
  createdAt : Int
deriving Repr, DecidableEq

/-- User document, per userSchema in src/server.js lines 66-83: username
(required, unique, 3..20 chars), password (the stored bcrypt hash),
accessToken (random hex generated at creation). -/
structure User where
  username : String
  password : String
  accessToken : String
deriving Repr, DecidableEq

/-- The persisted state: the Thought collection and the User collection. -/
structure Store where
  thoughts : List Thought
  users : List User
deriving Repr, DecidableEq

/-- Whitespace skipped by JS parseInt (common ASCII whitespace). -/
def isJsWs (c : Char) : Bool :=
  c = ' ' || c = '\t' || c = '\n' || c = '\r'

/-- Value of a hex digit character, none for non-digits. -/
def hexVal (c : Char) : Option Nat :=
  if '0' ≤ c ∧ c ≤ '9' then some (c.toNat - '0'.toNat)
  else if 'a' ≤ c ∧ c ≤ 'f' then some (c.toNat - 'a'.toNat + 10)
  else if 'A' ≤ c ∧ c ≤ 'F' then some (c.toNat - 'A'.toNat + 10)
  else none

/-- Longest-prefix digit accumulation in the given base, as JS parseInt does:
stop at the first character that is not a digit of the base; none when no
digit was consumed at all (JS NaN). -/
def digitsVal (base : Nat) : List Char → Nat → Bool → Option Nat
  | [], acc, seen => if seen then some acc else none
  | c :: rest, acc, seen =>
    match hexVal c with
    | some v =>
      if v < base then digitsVal base rest (acc * base + v) true
      else if seen then some acc else none
    | none => if seen then some acc else none

/-- JS parseInt(s) with no radix argument: skip leading whitespace, optional
sign, auto-detected 0x and 0X hex prefix, longest digit prefix; none models the
NaN result when no digit is consumed. -/
def parseIntJS (s : String) : Option Int :=
  let cs := s.data.dropWhile isJsWs
  let signed : Int × List Char :=
    match cs with
    | '-' :: rest => (-1, rest)
    | '+' :: rest => (1, rest)
    | _ => (1, cs)
  let body : Option Nat :=
    match signed.2 with
    | '0' :: x :: rest =>
      if x = 'x' ∨ x = 'X' then digitsVal 16 rest 0 false
      else digitsVal 10 signed.2 0 false
    | _ => digitsVal 10 signed.2 0 false
  body.map (fun n => signed.1 * Int.ofNat n)

/-- JS truthiness of an optional query-string value: undefined and the empty
string are falsy, every other string is truthy. -/
def truthy : Option String → Bool
  | none => false
  | some s => s != ""

/-- JS expression parseInt(v) || d, as used for page and limit in
src/server.js lines 183-184: NaN and 0 both fall back to the default. -/
def parseIntOr (v : Option String) (d : Int) : Int :=
  match v with
  | none => d
  | some s =>
    match parseIntJS s with
    | none => d
    | some n => if n = 0 then d else n

/-- Query parameters of GET /thoughts (src/server.js line 169). -/
structure ListQuery where
  heartsMin : Option String
  category : Option String
  sortBy : Option String
  page : Option String
  limit : Option String
deriving Repr, DecidableEq

/-- Mongo filter on hearts built in src/server.js lines 172-174: when
heartsMin is truthy the query gets hearts >= parseInt(heartsMin). A NaN bound
(non-parseable text) compares below every BSON number, so gte NaN matches
every numeric hearts value. -/
def heartsFilterOk (heartsMin : Option String) (h : Int) : Bool :=
  if truthy heartsMin then
    match parseIntJS (heartsMin.getD "") with
    | some n => decide (n ≤ h)
    | none => true
  else true

/-- Mongo filter on category built in src/server.js lines 175-177: exact
match when the parameter is truthy. -/
def categoryFilterOk (category : Option String) (c : String) : Bool :=
  if truthy category then c == category.getD "" else true

/-- Descending-hearts comparison used for the Mongo sort hearts: -1. -/
def heartsDescLe (a b : Thought) : Bool := decide (b.hearts ≤ a.hearts)

/-- Descending-createdAt comparison used for the Mongo sort createdAt: -1. -/
def dateDescLe (a b : Thought) : Bool := decide (b.createdAt ≤ a.createdAt)

/-- Insertion of an element into a list sorted by the comparison le, placing
it before the first element it compares le to. -/
def insertDesc (le : Thought → Thought → Bool) (a : Thought) :
    List Thought → List Thought
  | [] => [a]
  | b :: bs => if le a b then a :: b :: bs else b :: insertDesc le a bs

/-- Stable insertion sort by the comparison le. The store sorts (Mongo sort
by one key, JS stable Array sort) guarantee only the resulting key order and
stability, which this realises with structural recursion. -/
def sortByLe (le : Thought → Thought → Bool) : List Thought → List Thought
  | [] => []
  | a :: as => insertDesc le a (sortByLe le as)

/-- Sort step of src/server.js lines 179-181: sortBy equal to "hearts" sorts
by hearts descending, "date" by createdAt descending, anything else leaves
the store order untouched. -/
def applySort (sortBy : Option String) (l : List Thought) : List Thought :=
  if sortBy == some "hearts" then sortByLe heartsDescLe l
  else if sortBy == some "date" then sortByLe dateDescLe l
  else l

/-- Inserting permutes: the result is the element consed to the list, up to
order. -/
theorem insertDesc_perm (le : Thought → Thought → Bool) (a : Thought) :
    ∀ l : List Thought, List.Perm (insertDesc le a l) (a :: l) := by
  intro l
  induction l with
  | nil => exact List.Perm.refl _
  | cons b bs ih =>
    simp only [insertDesc]
    split
    · exact List.Perm.refl _
    · exact (ih.cons b).trans (List.Perm.swap a b bs)

/-- The insertion sort permutes its input. -/
theorem sortByLe_perm (le : Thought → Thought → Bool) :
    ∀ l : List Thought, List.Perm (sortByLe le l) l := by
  intro l
  induction l with
  | nil => exact List.Perm.refl _
  | cons a as ih => exact (insertDesc_perm le a _).trans (ih.cons a)

/-- Membership through insertion. -/
theorem mem_insertDesc {le : Thought → Thought → Bool} {a x : Thought}
    {l : List Thought} : x ∈ insertDesc le a l ↔ x = a ∨ x ∈ l :=
  (insertDesc_perm le a l).mem_iff.trans (List.mem_cons)

/-- Inserting into a le-sorted list keeps it le-sorted, for a transitive and
total comparison. -/
theorem pairwise_insertDesc (le : Thought → Thought → Bool)
    (htrans : ∀ a b c, le a b = true → le b c = true → le a c = true)
    (htotal : ∀ a b, le a b = true ∨ le b a = true) (a : Thought) :
    ∀ l : List Thought, l.Pairwise (fun x y => le x y = true) →
      (insertDesc le a l).Pairwise (fun x y => le x y = true) := by
  intro l
  induction l with
  | nil => intro _; simp [insertDesc]
  | cons b bs ih =>
    intro h
    rcases List.pairwise_cons.mp h with ⟨hb, hbs⟩
    simp only [insertDesc]
    by_cases hab : le a b = true
    · rw [if_pos hab]
      refine List.pairwise_cons.mpr ⟨?_, h⟩
      intro x hx
      rcases List.mem_cons.mp hx with rfl | hx
      · exact hab
      · exact htrans a b x hab (hb x hx)
    · rw [if_neg hab]
      refine List.pairwise_cons.mpr ⟨?_, ih hbs⟩
      intro x hx
      rcases mem_insertDesc.mp hx with rfl | hx
      · exact (htotal x b).resolve_left hab
      · exact hb x hx

/-- The insertion sort sorts, for a transitive and total comparison. -/
theorem sortByLe_pairwise (le : Thought → Thought → Bool)
    (htrans : ∀ a b c, le a b = true → le b c = true → le a c = true)
    (htotal : ∀ a b, le a b = true ∨ le b a = true) :
    ∀ l : List Thought, (sortByLe le l).Pairwise (fun x y => le x y = true) := by
  intro l
  induction l with
  | nil => simp [sortByLe]
  | cons a as ih =>
    exact pairwise_insertDesc le htrans htotal a _ ih

/-- Filter step of Thought.find(query) in src/server.js line 187. -/
def filteredThoughts (thoughts : List Thought) (q : ListQuery) : List Thought :=
  thoughts.filter (fun t => heartsFilterOk q.heartsMin t.hearts &&
    categoryFilterOk q.category t.category)

/-- Outcome of GET /thoughts: the 200 payload carries page and results
(src/server.js lines 192-195); storeError is the 500 branch of the catch
(line 197), reached for instance when Mongo rejects a negative skip. -/
inductive ListResult where
  | ok (page : Int) (results : List Thought)
  | storeError
deriving Repr, DecidableEq

/-- GET /thoughts handler, src/server.js lines 167-199: filter, sort, then
skip (pageInt - 1) * limitInt and limit limitInt. MongoDB rejects a negative
skip (the handler then answers 500); a negative limit returns at most its
absolute value, hence the natAbs. -/
def listThoughts (thoughts : List Thought) (q : ListQuery) : ListResult :=
  let sorted := applySort q.sortBy (filteredThoughts thoughts q)
  let pageInt := parseIntOr q.page 1
  let limitInt := parseIntOr q.limit 20
  let skip := (pageInt - 1) * limitInt
  if skip < 0 then ListResult.storeError
  else ListResult.ok pageInt ((sorted.drop skip.toNat).take limitInt.natAbs)

/-- Hearts filter of the in-memory variant, src/unnamed/part_000 lines 49-51
and src/unnamed/part_001 lines 27-29: the JS comparison hearts >= NaN is
false, so a present but non-parseable heartsMin rejects every thought there
(unlike the Mongo variant above). -/
def memHeartsOk (heartsMin : Option String) (h : Int) : Bool :=
  match parseIntJS (heartsMin.getD "") with
  | some n => decide (n ≤ h)
  | none => false

/-- Filter step of the in-memory variant (src/unnamed/part_001 lines 27-33):
hearts lower bound when heartsMin is truthy, then case-insensitive category
match when category is truthy. -/
def memFiltered (thoughts : List Thought) (q : ListQuery) : List Thought :=
  let r1 := if truthy q.heartsMin then
    thoughts.filter (fun t => memHeartsOk q.heartsMin t.hearts) else thoughts
  if truthy q.category then
    r1.filter (fun t => t.category.toLower == (q.category.getD "").toLower)
  else r1

/-- JS Array.slice(start, stop): negative indices count from the end,
indices are clamped to the array bounds. -/
def jsSlice (l : List Thought) (start stop : Int) : List Thought :=
  let n : Int := Int.ofNat l.length
  let s := if start < 0 then max (n + start) 0 else min start n
  let e := if stop < 0 then max (n + stop) 0 else min stop n
  (l.drop s.toNat).take (e - s).toNat

/-- Payload of the in-memory GET /thoughts (src/unnamed/part_001 lines
49-53): page, total and the paginated results. -/
structure MemListResult where
  page : Int
  total : Nat
  results : List Thought
deriving Repr, DecidableEq

/-- In-memory GET /thoughts handler, src/unnamed/part_001 lines 23-54:
filter, stable sort, then slice from (pageInt - 1) * limitInt of length
limitInt; limit defaults to the filtered length (all results) and total is
the filtered length before pagination. -/
def listThoughtsMem (thoughts : List Thought) (q : ListQuery) : MemListResult :=
  let result := applySort q.sortBy (memFiltered thoughts q)
  let pageInt := parseIntOr q.page 1
  let limitInt := parseIntOr q.limit (Int.ofNat result.length)
  let start := (pageInt - 1) * limitInt
  { page := pageInt, total := result.length,
    results := jsSlice result start (start + limitInt) }

/-- Strip of the optional "Bearer " prefix from the Authorization header,
src/server.js line 91: raw.startsWith("Bearer ") selects raw.slice(7). -/
def stripBearer (cs : List Char) : List Char :=
  match cs with
  | 'B' :: 'e' :: 'a' :: 'r' :: 'e' :: 'r' :: ' ' :: rest => rest
  | _ => cs

/-- The authenticateUser middleware, src/server.js lines 88-104: read the
Authorization header (empty string when absent), strip a Bearer prefix, and
look the token up in the User collection; none is the 401 "Please log in"
branch. -/
def authenticateUser (users : List User) (authHeader : Option String) : Option User :=
  users.find? (fun u =>
    u.accessToken == String.mk (stripBearer (authHeader.getD "").data))

/-- Body of POST /thoughts. The handler destructures only message and
category (src/server.js line 217); createdBy and hearts sent by the client
are carried here to state that they are ignored. -/
structure CreateBody where
  message : Option String
  category : Option String
  createdBy : Option String
  hearts : Option Int
deriving Repr, DecidableEq

/-- Outcome of POST /thoughts: 201 with the saved Thought, 401 from the
auth middleware, or 400 "Could not save thought" when save() fails
validation (src/server.js lines 215-229). -/
inductive CreateResult where
  | created (t : Thought)
  | unauthorized
  | validationError
deriving Repr, DecidableEq

/-- Document built by new Thought in src/server.js lines 218-222: the given
message, the category defaulting to "General" when absent, createdBy from
the requester; hearts defaults to 0, createdAt is set at creation, the id
is store-assigned. -/
def newThought (newId : Nat) (m : String) (category : Option String)
    (createdBy : String) (now : Int) : Thought :=
  { id := newId, message := m, hearts := 0, category := category.getD "General",
    createdBy := createdBy, createdAt := now }

/-- POST /thoughts handler, src/server.js lines 215-229, behind
authenticateUser. The body is destructured into message and category only;
save() validates message (required, length 5..140) and createdBy (required,
so a non-empty string). -/
def postThoughts (store : Store) (authHeader : Option String) (body : CreateBody)
    (newId : Nat) (now : Int) : CreateResult × Store :=
  match authenticateUser store.users authHeader with
  | none => (CreateResult.unauthorized, store)
  | some u =>
    match body.message with
    | none => (CreateResult.validationError, store)
    | some m =>
      if 5 ≤ m.length ∧ m.length ≤ 140 ∧ u.username ≠ "" then
        let t := newThought newId m body.category u.username now
        (CreateResult.created t, { store with thoughts := store.thoughts ++ [t] })
      else (CreateResult.validationError, store)

/-- Lookup of Thought.findById on the collection. -/
def findThought (store : Store) (id : Nat) : Option Thought :=
  store.thoughts.find? (fun t => t.id == id)

/-- Effective message written by the PATCH handler, src/server.js line 246:
req.body.message || thought.message keeps the old message when the body
message is absent or empty. -/
def effectiveMessage (bodyMessage : Option String) (t : Thought) : String :=
  if truthy bodyMessage then bodyMessage.getD "" else t.message

/-- Outcome of PATCH /thoughts/:id (src/server.js lines 232-252): 200 with
the updated Thought, 401 from the middleware, 404, 403 "Not allowed to edit
this thought", or 400 when save() fails validation. -/
inductive UpdateResult where
  | ok (t : Thought)
  | unauthorized
  | notFound
  | forbidden
  | validationError
deriving Repr, DecidableEq

/-- PATCH /thoughts/:id handler, src/server.js lines 232-252: find the
thought, 403 unless thought.createdBy equals the requester username, write
the effective message and save; save() re-validates message length and the
required createdBy, and on validation failure nothing is persisted. -/
def patchThought (store : Store) (authHeader : Option String) (id : Nat)
    (bodyMessage : Option String) : UpdateResult × Store :=
  match authenticateUser store.users authHeader with
  | none => (UpdateResult.unauthorized, store)
  | some u =>
    match findThought store id with
    | none => (UpdateResult.notFound, store)
    | some t =>
      if t.createdBy ≠ u.username then (UpdateResult.forbidden, store)
      else
        let m := effectiveMessage bodyMessage t
        if 5 ≤ m.length ∧ m.length ≤ 140 ∧ t.createdBy ≠ "" then
          let t2 := { t with message := m }
          (UpdateResult.ok t2,
           { store with thoughts := (store.thoughts.map
               (fun x => if x.id == id then t2 else x)) })
        else (UpdateResult.validationError, store)

/-- Outcome of DELETE /thoughts/:id (src/server.js lines 255-274): 200
"Thought deleted successfully", 401, 404, or 403 "Not allowed to delete
this thought". -/
inductive DeleteResult where
  | ok
  | unauthorized
  | notFound
  | forbidden
deriving Repr, DecidableEq

/-- DELETE /thoughts/:id handler, src/server.js lines 255-274: find the
thought, 403 unless thought.createdBy equals the requester username, then
thought.deleteOne() removes that one document. -/
def deleteThought (store : Store) (authHeader : Option String) (id : Nat) :
    DeleteResult × Store :=
  match authenticateUser store.users authHeader with
  | none => (DeleteResult.unauthorized, store)
  | some u =>
    match findThought store id with
    | none => (DeleteResult.notFound, store)
    | some t =>
      if t.createdBy ≠ u.username then (DeleteResult.forbidden, store)
      else (DeleteResult.ok,
        { store with thoughts := store.thoughts.eraseP (fun x => x.id == id) })

/-- Outcome of POST /thoughts/:id/like (src/server.js lines 277-291): 200
with the updated Thought or 404. -/
inductive LikeResult where
  | ok (t : Thought)
  | notFound
deriving Repr, DecidableEq

/-- Core of POST /thoughts/:id/like, src/server.js lines 279-283:
findByIdAndUpdate with an atomic inc of hearts by 1, returning the updated
document. -/
def likeThought (store : Store) (id : Nat) : LikeResult × Store :=
  match findThought store id with
  | none => (LikeResult.notFound, store)
  | some t =>
    (LikeResult.ok { t with hearts := t.hearts + 1 },
     { store with thoughts := (store.thoughts.map
         (fun x => if x.id == id then { x with hearts := x.hearts + 1 } else x)) })

/-- POST /thoughts/:id/like route, src/server.js line 277: it is not behind
authenticateUser; the request headers reach the handler but are never read,
which this wrapper makes explicit. -/
def postLike (store : Store) (authHeader : Option String) (id : Nat) :
    LikeResult × Store :=
  match authHeader with
  | _ => likeThought store id

/-- The single ownership decision used by both mutating routes
(src/server.js lines 240 and 263, stated positively). -/
def canMutate (t : Thought) (u : User) : Bool := t.createdBy == u.username

/-- Outcome of POST /register (src/server.js lines 107-136): 201 with
username and accessToken, 400 for a short password, 400 "That username
already exists" on the Mongo duplicate-key error 11000, and the 500
generic branch for any other save failure. -/
inductive RegisterResult where
  | created (username accessToken : String)
  | passwordTooShort
  | duplicateUsername
  | serverError
deriving Repr, DecidableEq

/-- POST /register handler, src/server.js lines 107-136, parametrised by
the bcrypt hash (hashSync with a fresh salt) and by the token the userSchema
default generates. The route rejects raw passwords shorter than 5; save()
validates username (required, 3..20) and the stored password hash (required,
minlength 6); the unique index on username makes a colliding insert fail
with error code 11000, mapped to duplicateUsername; other save errors hit
the 500 branch. -/
def register (hash : String → String) (newToken : String) (store : Store)
    (username password : String) : RegisterResult × Store :=
  if password.length < 5 then (RegisterResult.passwordTooShort, store)
  else if ¬ (3 ≤ username.length ∧ username.length ≤ 20 ∧
             6 ≤ (hash password).length) then
    (RegisterResult.serverError, store)
  else if store.users.any (fun u => u.username == username) then
    (RegisterResult.duplicateUsername, store)
  else
    (RegisterResult.created username newToken,
     { store with users := store.users ++
         [{ username := username, password := hash password,
            accessToken := newToken }] })

/-- Outcome of POST /login (src/server.js lines 138-156). -/
inductive LoginResult where
  | ok (username accessToken : String)
  | invalidCredentials
deriving Repr, DecidableEq

/-- POST /login handler, src/server.js lines 138-156, parametrised by
bcrypt.compareSync: look the user up by username; when absent, or when the
hash comparison fails, answer 400 with the same message. -/
def login (verify : String → String → Bool) (store : Store)
    (username password : String) : LoginResult :=
  match store.users.find? (fun u => u.username == username) with
  | none => LoginResult.invalidCredentials
  | some u =>
    if verify password u.password then LoginResult.ok u.username u.accessToken
    else LoginResult.invalidCredentials

/-- HTTP status the login handler answers with. -/
def loginStatus : LoginResult → Nat
  | LoginResult.ok _ _ => 200
  | LoginResult.invalidCredentials => 400

/-- Error message of the login response, none on success. -/
def loginErrorMessage : LoginResult → Option String
  | LoginResult.ok _ _ => none
  | LoginResult.invalidCredentials => some "Username or password is incorrect"

example : parseIntJS "12abc" = some 12 := by decide
example : parseIntJS "abc" = none := by decide
example : parseIntJS "" = none := by decide
example : parseIntJS "-0x10" = some (-16) := by decide
example : parseIntJS "  7" = some 7 := by decide
example : parseIntOr (some "0") 20 = 20 := by decide
example : parseIntOr none 1 = 1 := by decide

/-- Registered user used by the concrete witnesses. -/
def adaUser : User :=
  { username := "ada", password := "hashedpw1", accessToken := "tokenada" }

/-- Second registered user used by the concrete witnesses. -/
def bobUser : User :=
  { username := "bob", password := "hashedpw2", accessToken := "tokenbob" }

/-- Stored thought used by the concrete witnesses, created by ada. -/
def helloThought : Thought :=
  { id := 1, message := "Hello world", hearts := 0, category := "General",
    createdBy := "ada", createdAt := 0 }

/-- Concrete store used by the witnesses. -/
def demoStore : Store := { thoughts := [helloThought], users := [adaUser, bobUser] }

/-- Concrete create body used by the witnesses; its createdBy and hearts
fields are ones the handler must ignore. -/
def demoBody : CreateBody :=
  { message := some "A fresh happy thought", category := none,
    createdBy := some "bob", hearts := some 42 }

/-- Concrete stand-in for bcrypt.compareSync in the witnesses, matching the
demoHash below. -/
def demoVerify (raw stored : String) : Bool := stored == "h:" ++ raw

/-- Concrete stand-in for bcrypt.hashSync in the witnesses. -/
def demoHash (raw : String) : String := "h:" ++ raw

/-- Membership is invariant under the sort step, since sorting permutes. -/
theorem mem_applySort {t : Thought} {sortBy : Option String} {l : List Thought} :
    t ∈ applySort sortBy l ↔ t ∈ l := by
  unfold applySort
  split
  · exact (sortByLe_perm heartsDescLe l).mem_iff
  · split
    · exact (sortByLe_perm dateDescLe l).mem_iff
    · exact Iff.rfl

/-- The sort step preserves length, since sorting permutes. -/
theorem applySort_length (sortBy : Option String) (l : List Thought) :
    (applySort sortBy l).length = l.length := by
  unfold applySort
  split
  · exact (sortByLe_perm heartsDescLe l).length_eq
  · split
    · exact (sortByLe_perm dateDescLe l).length_eq
    · rfl

/-- Shape of every 200 answer of GET /thoughts: the page is the parsed page
parameter and the results are the limit-truncated drop of the sorted
filtered collection. -/
theorem listThoughts_ok_elim {thoughts : List Thought} {q : ListQuery}
    {p : Int} {results : List Thought}
    (h : listThoughts thoughts q = ListResult.ok p results) :
    p = parseIntOr q.page 1 ∧
    results = ((applySort q.sortBy (filteredThoughts thoughts q)).drop
        ((parseIntOr q.page 1 - 1) * parseIntOr q.limit 20).toNat).take
        (parseIntOr q.limit 20).natAbs := by
  simp only [listThoughts] at h
  split at h
  · exact absurd h (by simp)
  · exact ⟨(ListResult.ok.injEq _ _ _ _ ▸ h).1.symm,
           (ListResult.ok.injEq _ _ _ _ ▸ h).2.symm⟩

/-- Every thought in a 200 answer of GET /thoughts passed both query
filters. -/
theorem mem_results_mem_filtered {thoughts : List Thought} {q : ListQuery}
    {p : Int} {results : List Thought} {t : Thought}
    (h : listThoughts thoughts q = ListResult.ok p results) (ht : t ∈ results) :
    t ∈ filteredThoughts thoughts q := by
  obtain ⟨-, hr⟩ := listThoughts_ok_elim h
  subst hr
  exact mem_applySort.mp (List.drop_subset _ _ (List.take_subset _ _ ht))

/-- C4: for every write request (create, update, delete) whose credential is
absent (with the token-generation invariant that no stored accessToken is
the empty string) or does not resolve to a known user, the request is
rejected with the 401 authorization failure and the store is unchanged. -/
theorem authGuard_rejects_unauthenticated (store : Store) (header : Option String)
    (body : CreateBody) (newId : Nat) (now : Int) (id : Nat)
    (bodyMessage : Option String)
    (h : header = none ∧ (∀ u ∈ store.users, u.accessToken ≠ "") ∨
         authenticateUser store.users header = none) :
    postThoughts store header body newId now = (CreateResult.unauthorized, store) ∧
    patchThought store header id bodyMessage = (UpdateResult.unauthorized, store) ∧
    deleteThought store header id = (DeleteResult.unauthorized, store) := by
  have hnone : authenticateUser store.users header = none := by
    rcases h with ⟨hh, hall⟩ | hn
    · subst hh
      unfold authenticateUser
      refine List.find?_eq_none.mpr (fun u hu => ?_)
      simpa [stripBearer] using hall u hu
    · exact hn
  exact ⟨by simp [postThoughts, hnone], by simp [patchThought, hnone],
         by simp [deleteThought, hnone]⟩

/-- C4 witness: a concrete unknown token is rejected on all three write
routes, and the absent-header case is rejected as well. -/
theorem authGuard_rejects_unauthenticated_witness :
    postThoughts demoStore (some "badtoken") demoBody 2 5 =
      (CreateResult.unauthorized, demoStore) ∧
    patchThought demoStore none 1 (some "Updated message") =
      (UpdateResult.unauthorized, demoStore) := by
  refine ⟨(authGuard_rejects_unauthenticated demoStore (some "badtoken") demoBody
      2 5 1 (some "Updated message") (Or.inr (by decide))).1,
    (authGuard_rejects_unauthenticated demoStore none demoBody 2 5 1
      (some "Updated message") (Or.inl ⟨rfl, by decide⟩)).2.1⟩

/-- C8: a login that fails because the username is unknown and a login that
fails because the password hash comparison fails produce the same outcome:
the same LoginResult value, hence the same 400 status and the same error
message, revealing nothing about whether the username is registered. -/
theorem login_uniform_error (verify : String → String → Bool) (s1 s2 : Store)
    (u1 p1 u2 p2 : String)
    (h1 : s1.users.find? (fun u => u.username == u1) = none)
    (h2 : ∃ u, s2.users.find? (fun u => u.username == u2) = some u ∧
          verify p2 u.password = false) :
    login verify s1 u1 p1 = LoginResult.invalidCredentials ∧
    login verify s2 u2 p2 = LoginResult.invalidCredentials ∧
    login verify s1 u1 p1 = login verify s2 u2 p2 ∧
    loginStatus (login verify s1 u1 p1) = loginStatus (login verify s2 u2 p2) ∧
    loginErrorMessage (login verify s1 u1 p1) =
      loginErrorMessage (login verify s2 u2 p2) := by
  obtain ⟨u, hu, hv⟩ := h2
  have e1 : login verify s1 u1 p1 = LoginResult.invalidCredentials := by
    simp [login, h1]
  have e2 : login verify s2 u2 p2 = LoginResult.invalidCredentials := by
    simp [login, hu, hv]
  exact ⟨e1, e2, by rw [e1, e2], by rw [e1, e2], by rw [e1, e2]⟩

/-- C8 witness: an unknown username and a known username with a wrong
password yield literally the same login response on the demo store. -/
theorem login_uniform_error_witness :
    login demoVerify demoStore "carol" "pw12345" = LoginResult.invalidCredentials ∧
    login demoVerify demoStore "ada" "wrongpw" = LoginResult.invalidCredentials ∧
    login demoVerify demoStore "carol" "pw12345" =
      login demoVerify demoStore "ada" "wrongpw" := by
  have h := login_uniform_error demoVerify demoStore demoStore "carol" "pw12345"
    "ada" "wrongpw" (by decide) ⟨adaUser, by decide, by decide⟩
  exact ⟨h.1, h.2.1, h.2.2.1⟩

/-- C2: every thought created through POST /thoughts starts with hearts 0;
POST /thoughts/:id/like on an existing thought increments its hearts by
exactly 1 leaving every other field unchanged and every other thought
untouched, and the route reads no credential, so the outcome is identical
for every caller. -/
theorem hearts_init_and_increment :
    (∀ (store : Store) (header : Option String) (body : CreateBody)
       (newId : Nat) (now : Int) (t : Thought),
       (postThoughts store header body newId now).1 = CreateResult.created t →
       t.hearts = 0) ∧
    (∀ (store : Store) (id : Nat) (t : Thought), findThought store id = some t →
       (likeThought store id).1 = LikeResult.ok { t with hearts := t.hearts + 1 } ∧
       (likeThought store id).2.thoughts.length = store.thoughts.length ∧
       (likeThought store id).2.users = store.users ∧
       (∀ x ∈ store.thoughts, ¬ x.id = id →
          x ∈ (likeThought store id).2.thoughts)) ∧
    (∀ (store : Store) (h1 h2 : Option String) (id : Nat),
       postLike store h1 id = postLike store h2 id) := by
  refine ⟨?_, ?_, ?_⟩
  · intro store header body newId now t ht
    simp only [postThoughts] at ht
    split at ht
    · simp at ht
    · split at ht
      · simp at ht
      · split at ht
        · simp at ht
          subst ht
          rfl
        · simp at ht
  · intro store id t hft
    refine ⟨by simp [likeThought, hft], by simp [likeThought, hft],
            by simp [likeThought, hft], ?_⟩
    intro x hx hne
    simp only [likeThought, hft]
    exact List.mem_map.mpr ⟨x, hx, by simp [hne]⟩
  · intro store h1 h2 id
    rfl

/-- C2 witness: liking the demo thought once yields hearts 1 with all other
fields unchanged. -/
theorem hearts_init_and_increment_witness :
    (likeThought demoStore 1).1 =
      LikeResult.ok { helloThought with hearts := 1 } :=
  (hearts_init_and_increment.2.1 demoStore 1 helloThought (by decide)).1

/-- C10: every thought saved by POST /thoughts carries the authenticated
requester username as createdBy, and the handler reads only message and
category from the body, so a createdBy (or hearts) value supplied by the
client changes nothing. -/
theorem create_createdBy_from_auth (store : Store) (header : Option String)
    (body : CreateBody) (newId : Nat) (now : Int) (u : User)
    (hauth : authenticateUser store.users header = some u) :
    (∀ t, (postThoughts store header body newId now).1 = CreateResult.created t →
       t.createdBy = u.username) ∧
    (∀ body2 : CreateBody, body.message = body2.message →
       body.category = body2.category →
       postThoughts store header body newId now =
         postThoughts store header body2 newId now) := by
  constructor
  · intro t ht
    simp only [postThoughts, hauth] at ht
    split at ht
    · simp at ht
    · split at ht
      · simp at ht
        subst ht
        rfl
      · simp at ht
  · intro body2 hm hc
    simp only [postThoughts, hauth, hm, hc]

/-- C10 witness: the demo body asks for createdBy bob, yet the thought is
saved with createdBy ada, the authenticated requester; and the body fields
other than message and category are irrelevant. -/
theorem create_createdBy_from_auth_witness :
    (∀ t, (postThoughts demoStore (some "tokenada") demoBody 2 5).1 =
       CreateResult.created t → t.createdBy = "ada") ∧
    postThoughts demoStore (some "tokenada") demoBody 2 5 =
      postThoughts demoStore (some "tokenada")
        { demoBody with createdBy := none, hearts := none } 2 5 := by
  have h := create_createdBy_from_auth demoStore (some "tokenada") demoBody 2 5
    adaUser (by decide)
  exact ⟨fun t ht => h.1 t ht, h.2 _ rfl rfl⟩

/-- C3: a create request whose message has length in 5..140 (with the
required createdBy present, that is an authenticated user with a non-empty
username) succeeds and appends exactly the new thought; a create request
whose message is absent, shorter than 5 or longer than 140 fails with the
validation error and leaves the store unchanged. -/
theorem create_validation (store : Store) (header : Option String)
    (body : CreateBody) (newId : Nat) (now : Int) (u : User)
    (hauth : authenticateUser store.users header = some u)
    (hu : u.username ≠ "") :
    (∀ m, body.message = some m → 5 ≤ m.length → m.length ≤ 140 →
       postThoughts store header body newId now =
         (CreateResult.created (newThought newId m body.category u.username now),
          { store with thoughts := store.thoughts ++
              [newThought newId m body.category u.username now] })) ∧
    ((body.message = none ∨ ∃ m, body.message = some m ∧
        (m.length < 5 ∨ 140 < m.length)) →
       postThoughts store header body newId now =
         (CreateResult.validationError, store)) := by
  constructor
  · intro m hm h5 h140
    simp [postThoughts, hauth, hm, h5, h140, hu]
  · rintro (hm | ⟨m, hm, hbad⟩)
    · simp [postThoughts, hauth, hm]
    · have : ¬ (5 ≤ m.length ∧ m.length ≤ 140 ∧ u.username ≠ "") := by
        rcases hbad with h | h
        · exact fun hc => absurd hc.1 (by omega)
        · exact fun hc => absurd hc.2.1 (by omega)
      simp [postThoughts, hauth, hm, this]

/-- C3 witness: a 21-character message is saved and appended; a 2-character
message is rejected with the store unchanged. -/
theorem create_validation_witness :
    postThoughts demoStore (some "tokenada") demoBody 2 5 =
      (CreateResult.created (newThought 2 "A fresh happy thought" none "ada" 5),
       { demoStore with thoughts := demoStore.thoughts ++
           [newThought 2 "A fresh happy thought" none "ada" 5] }) ∧
    postThoughts demoStore (some "tokenada") { demoBody with message := some "ab" }
      2 5 = (CreateResult.validationError, demoStore) := by
  have h := create_validation demoStore (some "tokenada") demoBody 2 5 adaUser
    (by decide) (by decide)
  have h2 := create_validation demoStore (some "tokenada")
    { demoBody with message := some "ab" } 2 5 adaUser (by decide) (by decide)
  exact ⟨h.1 "A fresh happy thought" rfl (by decide) (by decide),
         h2.2 (Or.inr ⟨"ab", rfl, Or.inl (by decide)⟩)⟩

/-- C9: registering the same otherwise-valid username twice: the first call
answers 201 and appends exactly one user record, the second answers 400
duplicateUsername, a constructor distinct from the generic 500 error, and
the user collection is unchanged by the second call. -/
theorem register_duplicate_username (hash : String → String) (tok1 tok2 : String)
    (store : Store) (username p1 p2 : String)
    (hu3 : 3 ≤ username.length) (hu20 : username.length ≤ 20)
    (hp1 : 5 ≤ p1.length) (hp2 : 5 ≤ p2.length)
    (hh1 : 6 ≤ (hash p1).length) (hh2 : 6 ≤ (hash p2).length)
    (hfresh : ∀ u ∈ store.users, u.username ≠ username) :
    register hash tok1 store username p1 =
      (RegisterResult.created username tok1,
       { store with users := store.users ++
           [{ username := username, password := hash p1, accessToken := tok1 }] }) ∧
    register hash tok2 (register hash tok1 store username p1).2 username p2 =
      (RegisterResult.duplicateUsername, (register hash tok1 store username p1).2) ∧
    RegisterResult.duplicateUsername ≠ RegisterResult.serverError := by
  have hany : store.users.any (fun u => u.username == username) = false := by
    rw [List.any_eq_false]
    intro u hu
    simpa using hfresh u hu
  have h1 : register hash tok1 store username p1 =
      (RegisterResult.created username tok1,
       { store with users := store.users ++
           [{ username := username, password := hash p1, accessToken := tok1 }] }) := by
    unfold register
    rw [if_neg (by omega), if_neg (not_not_intro ⟨hu3, hu20, hh1⟩), if_neg]
    simp [hany]
  refine ⟨h1, ?_, by simp⟩
  rw [h1]
  unfold register
  rw [if_neg (by omega), if_neg (not_not_intro ⟨hu3, hu20, hh2⟩), if_pos]
  simp

/-- C9 witness: registering carol on the demo store succeeds, and a second
registration of carol fails as a duplicate leaving the users unchanged. -/
theorem register_duplicate_username_witness :
    register demoHash "tokcarol1" demoStore "carol" "secret1" =
      (RegisterResult.created "carol" "tokcarol1",
       { demoStore with users := demoStore.users ++
           [{ username := "carol", password := demoHash "secret1",
              accessToken := "tokcarol1" }] }) ∧
    register demoHash "tokcarol2"
        (register demoHash "tokcarol1" demoStore "carol" "secret1").2
        "carol" "secret2" =
      (RegisterResult.duplicateUsername,
       (register demoHash "tokcarol1" demoStore "carol" "secret1").2) := by
  have h := register_duplicate_username demoHash "tokcarol1" "tokcarol2" demoStore
    "carol" "secret1" "secret2" (by decide) (by decide) (by decide) (by decide)
    (by decide) (by decide) (by decide)
  exact ⟨h.1, h.2.1⟩

/-- Second stored thought used by the list-query witnesses. -/
def funThought : Thought :=
  { id := 2, message := "Fun times ahead", hearts := 5, category := "Fun",
    createdBy := "bob", createdAt := 10 }

/-- Concrete thought collection used by the list-query witnesses. -/
def demoThoughts : List Thought := [helloThought, funThought]

/-- C1 counterexample: on the demo store the requester ada is authenticated,
thought 1 exists and is owned by ada, yet the update with body message "ab"
fails (save() rejects the 2-character message), so update does not succeed
whenever requester.username equals thought.createdBy. -/
theorem update_iff_ownership_counterexample :
    authenticateUser demoStore.users (some "tokenada") = some adaUser ∧
    findThought demoStore 1 = some helloThought ∧
    adaUser.username = helloThought.createdBy ∧
    patchThought demoStore (some "tokenada") 1 (some "ab") =
      (UpdateResult.validationError, demoStore) := by decide

/-- C1 (amended): for update and delete on an existing thought by an
authenticated requester, the same ownership predicate canMutate gates both:
when it is false both routes answer Forbidden and the store is unchanged;
when it is true, delete succeeds and removes the thought, while update
succeeds exactly when the effective message (the body message if truthy,
else the current one) has valid length, and a validation failure leaves the
store unchanged. The hypothesis that createdBy is non-empty is the schema
invariant of every stored thought. -/
theorem updateDelete_ownership (store : Store) (header : Option String)
    (id : Nat) (bodyMessage : Option String) (u : User) (t : Thought)
    (hauth : authenticateUser store.users header = some u)
    (hfind : findThought store id = some t)
    (hcb : t.createdBy ≠ "") :
    (canMutate t u = false →
       patchThought store header id bodyMessage = (UpdateResult.forbidden, store) ∧
       deleteThought store header id = (DeleteResult.forbidden, store)) ∧
    (canMutate t u = true →
       deleteThought store header id =
         (DeleteResult.ok,
          { store with thoughts := store.thoughts.eraseP (fun x => x.id == id) }) ∧
       ((∃ t2, (patchThought store header id bodyMessage).1 = UpdateResult.ok t2) ↔
          (5 ≤ (effectiveMessage bodyMessage t).length ∧
           (effectiveMessage bodyMessage t).length ≤ 140)) ∧
       ((patchThought store header id bodyMessage).1 = UpdateResult.validationError →
          (patchThought store header id bodyMessage).2 = store)) := by
  constructor
  · intro hcm
    have hne : t.createdBy ≠ u.username := by
      intro he
      rw [canMutate, he] at hcm
      simp at hcm
    constructor
    · simp only [patchThought, hauth, hfind]
      rw [if_pos hne]
    · simp only [deleteThought, hauth, hfind]
      rw [if_pos hne]
  · intro hcm
    have heq : t.createdBy = u.username := by simpa [canMutate] using hcm
    refine ⟨?_, ?_, ?_⟩
    · simp only [deleteThought, hauth, hfind]
      rw [if_neg (not_not_intro heq)]
    · by_cases hv : 5 ≤ (effectiveMessage bodyMessage t).length ∧
          (effectiveMessage bodyMessage t).length ≤ 140
      · refine ⟨fun _ => hv, fun _ => ⟨{ t with message := effectiveMessage bodyMessage t }, ?_⟩⟩
        simp only [patchThought, hauth, hfind]
        rw [if_neg (not_not_intro heq), if_pos ⟨hv.1, hv.2, hcb⟩]
      · constructor
        · rintro ⟨t2, ht2⟩
          exfalso
          simp only [patchThought, hauth, hfind] at ht2
          rw [if_neg (not_not_intro heq),
              if_neg (fun hc => hv ⟨hc.1, hc.2.1⟩)] at ht2
          simp at ht2
        · intro hcon
          exact absurd hcon hv
    · intro hval
      by_cases hv : 5 ≤ (effectiveMessage bodyMessage t).length ∧
          (effectiveMessage bodyMessage t).length ≤ 140
      · exfalso
        simp only [patchThought, hauth, hfind] at hval
        rw [if_neg (not_not_intro heq), if_pos ⟨hv.1, hv.2, hcb⟩] at hval
        simp at hval
      · simp only [patchThought, hauth, hfind]
        rw [if_neg (not_not_intro heq),
            if_neg (fun hc => hv ⟨hc.1, hc.2.1⟩)]

/-- C1 (amended) witness: bob may not edit ada's thought and the store is
unchanged; ada deletes her own thought successfully. -/
theorem updateDelete_ownership_witness :
    patchThought demoStore (some "tokenbob") 1 (some "Hacked message") =
      (UpdateResult.forbidden, demoStore) ∧
    deleteThought demoStore (some "tokenada") 1 =
      (DeleteResult.ok, { demoStore with thoughts := [] }) := by
  have hb := updateDelete_ownership demoStore (some "tokenbob") 1
    (some "Hacked message") bobUser helloThought (by decide) (by decide) (by decide)
  have ha := updateDelete_ownership demoStore (some "tokenada") 1
    (some "Hacked message") adaUser helloThought (by decide) (by decide) (by decide)
  refine ⟨(hb.1 (by decide)).1, ?_⟩
  rw [(ha.2 (by decide)).1]
  decide

/-- Sorting with the descending-hearts comparison yields a non-increasing
hearts sequence. -/
theorem pairwise_sort_hearts (l : List Thought) :
    (sortByLe heartsDescLe l).Pairwise (fun a b => b.hearts ≤ a.hearts) := by
  have h := sortByLe_pairwise heartsDescLe
    (fun a b c hab hbc => by
      simp only [heartsDescLe, decide_eq_true_eq] at hab hbc ⊢
      omega)
    (fun a b => by
      simp only [heartsDescLe, decide_eq_true_eq]
      omega) l
  exact h.imp (fun hab => by simpa [heartsDescLe] using hab)

/-- Sorting with the descending-date comparison yields a non-increasing
createdAt sequence. -/
theorem pairwise_sort_date (l : List Thought) :
    (sortByLe dateDescLe l).Pairwise (fun a b => b.createdAt ≤ a.createdAt) := by
  have h := sortByLe_pairwise dateDescLe
    (fun a b c hab hbc => by
      simp only [dateDescLe, decide_eq_true_eq] at hab hbc ⊢
      omega)
    (fun a b => by
      simp only [dateDescLe, decide_eq_true_eq]
      omega) l
  exact h.imp (fun hab => by simpa [dateDescLe] using hab)

/-- C7: in every 200 answer of GET /thoughts, sortBy hearts gives results in
non-increasing hearts order, sortBy date in non-increasing createdAt order,
and any other or absent sortBy leaves the results a subsequence of the
store collection, preserving store order. -/
theorem list_sorting (thoughts : List Thought) (q : ListQuery) (p : Int)
    (results : List Thought)
    (hok : listThoughts thoughts q = ListResult.ok p results) :
    (q.sortBy = some "hearts" →
       results.Pairwise (fun a b => b.hearts ≤ a.hearts)) ∧
    (q.sortBy = some "date" →
       results.Pairwise (fun a b => b.createdAt ≤ a.createdAt)) ∧
    (q.sortBy ≠ some "hearts" → q.sortBy ≠ some "date" →
       results.Sublist thoughts) := by
  obtain ⟨-, hr⟩ := listThoughts_ok_elim hok
  have hsub : results.Sublist (applySort q.sortBy (filteredThoughts thoughts q)) := by
    rw [hr]
    exact (List.take_sublist _ _).trans (List.drop_sublist _ _)
  refine ⟨?_, ?_, ?_⟩
  · intro hs
    have he : applySort q.sortBy (filteredThoughts thoughts q) =
        sortByLe heartsDescLe (filteredThoughts thoughts q) := by
      simp [applySort, hs]
    exact (pairwise_sort_hearts _).sublist (he ▸ hsub)
  · intro hs
    have he : applySort q.sortBy (filteredThoughts thoughts q) =
        sortByLe dateDescLe (filteredThoughts thoughts q) := by
      simp [applySort, hs]
    exact (pairwise_sort_date _).sublist (he ▸ hsub)
  · intro h1 h2
    have : applySort q.sortBy (filteredThoughts thoughts q) =
        filteredThoughts thoughts q := by
      simp [applySort, beq_eq_false_iff_ne.mpr h1, beq_eq_false_iff_ne.mpr h2]
    exact (this ▸ hsub).trans (List.filter_sublist _)

/-- C7 witness: sorting the demo collection by hearts yields funThought
(5 hearts) before helloThought (0 hearts). -/
theorem list_sorting_witness :
    List.Pairwise (fun a b : Thought => b.hearts ≤ a.hearts)
      [funThought, helloThought] := by
  have h := list_sorting demoThoughts
    { heartsMin := none, category := none, sortBy := some "hearts",
      page := none, limit := none } 1 [funThought, helloThought] (by decide)
  simpa using h.1 rfl

/-- A string that parses to an integer is not empty. -/
theorem parse_some_ne_empty {s : String} {n : Int} (h : parseIntJS s = some n) :
    s ≠ "" := by
  intro he
  rw [he, show parseIntJS "" = none from rfl] at h
  exact Option.noConfusion h

/-- A heartsMin value that does not parse imposes no constraint in the Mongo
variant: the gte NaN bound matches every numeric hearts value. -/
theorem heartsFilterOk_of_parse_none {s : String} (h : parseIntJS s = none)
    (x : Int) : heartsFilterOk (some s) x = true := by
  simp only [heartsFilterOk, Option.getD, h]
  split <;> rfl

/-- C5: in every 200 answer of GET /thoughts, when heartsMin parses to an
integer N every returned thought has hearts at least N; membership in the
filtered set is exactly the conjunction (intersection) of the hearts filter
and the category filter; and when heartsMin is absent or does not parse the
whole answer coincides with the answer for the query without heartsMin. -/
theorem list_heartsMin_filter (thoughts : List Thought) (q : ListQuery) :
    (∀ s n p results, q.heartsMin = some s → parseIntJS s = some n →
       listThoughts thoughts q = ListResult.ok p results →
       ∀ t ∈ results, n ≤ t.hearts) ∧
    (∀ c p results, q.category = some c → c ≠ "" →
       listThoughts thoughts q = ListResult.ok p results →
       ∀ t ∈ results, t.category = c) ∧
    (∀ t, t ∈ filteredThoughts thoughts q ↔
       (t ∈ thoughts ∧ heartsFilterOk q.heartsMin t.hearts = true ∧
        categoryFilterOk q.category t.category = true)) ∧
    ((q.heartsMin = none ∨ ∃ s, q.heartsMin = some s ∧ parseIntJS s = none) →
       listThoughts thoughts q = listThoughts thoughts { q with heartsMin := none }) := by
  refine ⟨?_, ?_, ?_, ?_⟩
  · intro s n p results hq hparse hok t ht
    have hmem := mem_results_mem_filtered hok ht
    rw [filteredThoughts, List.mem_filter] at hmem
    have hhearts : heartsFilterOk q.heartsMin t.hearts = true :=
      (Bool.and_eq_true .. ▸ hmem.2).1
    rw [hq] at hhearts
    have hbne : (s != "") = true := bne_iff_ne.mpr (parse_some_ne_empty hparse)
    simp only [heartsFilterOk, truthy, hbne, if_true, Option.getD, hparse,
      decide_eq_true_eq] at hhearts
    exact hhearts
  · intro c p results hq hc hok t ht
    have hmem := mem_results_mem_filtered hok ht
    rw [filteredThoughts, List.mem_filter] at hmem
    have hcat : categoryFilterOk q.category t.category = true :=
      (Bool.and_eq_true .. ▸ hmem.2).2
    rw [hq] at hcat
    have hbne : (c != "") = true := bne_iff_ne.mpr hc
    simp only [categoryFilterOk, truthy, hbne, if_true, Option.getD,
      beq_iff_eq] at hcat
    exact hcat
  · intro t
    rw [filteredThoughts, List.mem_filter, Bool.and_eq_true]
  · intro h
    have hf : filteredThoughts thoughts q =
        filteredThoughts thoughts { q with heartsMin := none } := by
      rw [filteredThoughts, filteredThoughts]
      refine List.filter_congr (fun t _ => ?_)
      rcases h with hn | ⟨s, hs, hp⟩
      · rw [hn]
      · rw [hs, heartsFilterOk_of_parse_none hp]
        rfl
    simp only [listThoughts, hf]

/-- C5 witness: with heartsMin 3 only the 5-hearts thought is returned and
its hearts exceed 3; a non-parseable heartsMin answers exactly as the query
without heartsMin. -/
theorem list_heartsMin_filter_witness :
    (3 : Int) ≤ funThought.hearts ∧
    listThoughts demoThoughts
        { heartsMin := some "abc", category := none, sortBy := none,
          page := none, limit := none } =
      listThoughts demoThoughts
        { heartsMin := none, category := none, sortBy := none,
          page := none, limit := none } := by
  constructor
  · exact (list_heartsMin_filter demoThoughts
      { heartsMin := some "3", category := none, sortBy := none,
        page := none, limit := none }).1 "3" 3 1 [funThought] rfl (by decide)
      (by decide) funThought (by decide)
  · exact (list_heartsMin_filter demoThoughts
      { heartsMin := some "abc", category := none, sortBy := none,
        page := none, limit := none }).2.2.2
      (Or.inr ⟨"abc", rfl, by decide⟩)

/-- C6: for every list query whose parsed page p is at least 1 and parsed
limit l non-negative, the 200 answer reports page p and the slice of the
filtered and sorted set from offset (p - 1) * l of length at most l; page
parses to 1 and limit to 20 when the parameter is absent or non-parseable;
and the total reported by the in-memory variant is the size of its filtered
set before pagination. -/
theorem list_pagination (thoughts : List Thought) (q : ListQuery) (p l : Int)
    (hp : parseIntOr q.page 1 = p) (hl : parseIntOr q.limit 20 = l)
    (hp1 : 1 ≤ p) (hl0 : 0 ≤ l) :
    listThoughts thoughts q = ListResult.ok p
      (((applySort q.sortBy (filteredThoughts thoughts q)).drop
          ((p - 1) * l).toNat).take l.toNat) ∧
    (q.page = none → p = 1) ∧
    (∀ s, q.page = some s → parseIntJS s = none → p = 1) ∧
    (q.limit = none → l = 20) ∧
    (∀ s, q.limit = some s → parseIntJS s = none → l = 20) ∧
    (listThoughtsMem thoughts q).total = (memFiltered thoughts q).length := by
  refine ⟨?_, ?_, ?_, ?_, ?_, ?_⟩
  · have hskip : ¬ ((p - 1) * l < 0) := by
      have := mul_nonneg (by omega : (0 : Int) ≤ p - 1) hl0
      omega
    have habs : l.natAbs = l.toNat := by omega
    simp only [listThoughts, hp, hl, if_neg hskip, habs]
  · intro hn
    rw [hn] at hp
    simpa [parseIntOr] using hp.symm
  · intro s hs hparse
    rw [hs] at hp
    simp only [parseIntOr, hparse] at hp
    omega
  · intro hn
    rw [hn] at hl
    simpa [parseIntOr] using hl.symm
  · intro s hs hparse
    rw [hs] at hl
    simp only [parseIntOr, hparse] at hl
    omega
  · simp only [listThoughtsMem, applySort_length]

/-- C6 witness: page 2 with limit 1 on the two demo thoughts returns the
item at offset 1, and the in-memory total is the full filtered size 2. -/
theorem list_pagination_witness :
    listThoughts demoThoughts
        { heartsMin := none, category := none, sortBy := none,
          page := some "2", limit := some "1" } =
      ListResult.ok 2 [funThought] ∧
    (listThoughtsMem demoThoughts
        { heartsMin := none, category := none, sortBy := none,
          page := some "2", limit := some "1" }).total = 2 := by
  have h := list_pagination demoThoughts
    { heartsMin := none, category := none, sortBy := none,
      page := some "2", limit := some "1" } 2 1 (by decide) (by decide)
    (by decide) (by decide)
  exact ⟨by rw [h.1]; decide, by rw [h.2.2.2.2.2]; decide⟩
